import Mathlib

/-!
Verification of the day-1 dial-rotation engine
(`src/day_1/src/puzzle_engine.rs` and `src/day_1/src/main.rs`).

We embed the Rust code shallowly:

* a Rust `&str` is a `List Char` (Unicode scalar values); `str::len`
  (a UTF-8 *byte* count) is `utf8Len`;
* `i32` values are `Int` (overflow is impossible in the reachable range:
  positions stay in `[0,100)` and the step counter is bounded by the
  parsed magnitude, itself in `i32` range);
* Rust's `%` on `i32` (truncated remainder) is `Int.tmod`;
* fallible functions return `Except`/`Option`.
-/

namespace Day1

/-! ### UTF-8 byte-level view of strings -/

/-- UTF-8 byte length of a string given as a list of characters
(models Rust `str::len`). -/
def utf8Len : List Char → Nat
  | [] => 0
  | c :: rest => c.utf8Size + utf8Len rest

/-- The UTF-8 encoding of a single character as a list of byte values. -/
def utf8EncodeChar (c : Char) : List Nat :=
  let n := c.toNat
  if n < 0x80 then [n]
  else if n < 0x800 then
    [0xC0 + n / 64, 0x80 + n % 64]
  else if n < 0x10000 then
    [0xE0 + n / 4096, 0x80 + n / 64 % 64, 0x80 + n % 64]
  else
    [0xF0 + n / 262144, 0x80 + n / 4096 % 64, 0x80 + n / 64 % 64, 0x80 + n % 64]

/-- The UTF-8 encoding of a string as a list of byte values
(the memory representation of a Rust `&str`). -/
def encodeUtf8 : List Char → List Nat
  | [] => []
  | c :: rest => utf8EncodeChar c ++ encodeUtf8 rest

/-- `isCharBoundary l i = true` iff byte index `i` falls on a character
boundary of the UTF-8 representation of `l`, i.e. some prefix of `l`
occupies exactly `i` bytes (models Rust `str::is_char_boundary`, the
condition under which a byte-range slice `line[i..]` does not panic). -/
def isCharBoundary : List Char → Nat → Bool
  | _, 0 => true
  | [], _ + 1 => false
  | c :: rest, i + 1 =>
    if c.utf8Size ≤ i + 1 then isCharBoundary rest (i + 1 - c.utf8Size) else false

/-! ### Whitespace, `str::trim`, and `str::lines` -/

/-- Rust `char::is_whitespace`: the Unicode `White_Space` property. -/
def isRustWhitespace (c : Char) : Bool :=
  let n := c.toNat
  (0x09 ≤ n && n ≤ 0x0D) || n == 0x20 || n == 0x85 || n == 0xA0 ||
    n == 0x1680 || (0x2000 ≤ n && n ≤ 0x200A) || n == 0x2028 || n == 0x2029 ||
    n == 0x202F || n == 0x205F || n == 0x3000

/-- Rust `str::trim`: strip leading and trailing whitespace. -/
def trim (l : List Char) : List Char :=
  ((l.dropWhile isRustWhitespace).reverse.dropWhile isRustWhitespace).reverse

/-- Strip one trailing `"\r\n"` or `"\n"` from a line
(the per-item post-processing inside Rust `str::lines`). -/
def removeLineEnding (l : List Char) : List Char :=
  match l.reverse with
  | '\n' :: '\r' :: t => t.reverse
  | '\n' :: t => t.reverse
  | _ => l

/-- Split inclusively after each `'\n'` (Rust `str::split_inclusive('\n')`);
`acc` holds the current chunk, reversed. -/
def splitAfterNl (acc : List Char) : List Char → List (List Char)
  | [] => if acc.isEmpty then [] else [acc.reverse]
  | '\n' :: rest => (acc.reverse ++ ['\n']) :: splitAfterNl [] rest
  | c :: rest => splitAfterNl (c :: acc) rest

/-- Rust `str::lines`: split at `'\n'`, dropping a final empty chunk and
removing the `"\n"` / `"\r\n"` terminator of each line. -/
def rustLines (l : List Char) : List (List Char) :=
  (splitAfterNl [] l).map removeLineEnding

/-! ### `str::parse::<i32>` -/

/-- ASCII decimal digit test. -/
def isAsciiDigit (c : Char) : Bool := '0' ≤ c && c ≤ '9'

/-- Numeric value of a string of ASCII digits, most significant first. -/
def digitsVal (l : List Char) : Nat :=
  l.foldl (fun a c => 10 * a + (c.toNat - '0'.toNat)) 0

/-- Digits-and-range part of `i32` parsing: after the optional sign has
been consumed, the rest must be one or more ASCII digits and the signed
value must fit in `i32`. -/
def parseSigned (sign : Int) (ds : List Char) : Option Int :=
  if ds.isEmpty then none
  else if ds.all isAsciiDigit then
    let v : Int := sign * (digitsVal ds : Int)
    if -2147483648 ≤ v ∧ v ≤ 2147483647 then some v else none
  else none

/-- Rust `str::parse::<i32>`: an optional `'+'`/`'-'` sign followed by one
or more ASCII digits, with the value required to fit in `i32`. -/
def parse_i32 : List Char → Option Int
  | '+' :: ds => parseSigned 1 ds
  | '-' :: ds => parseSigned (-1) ds
  | ds => parseSigned 1 ds

/-! ### `parse_rotation` -/

/-- The three failure shapes of `parse_rotation` (the Rust code reports
them as strings: "Line too short", "Invalid direction", "Invalid number"). -/
inductive ParseError
  | TooShort
  | InvalidDirection
  | InvalidMagnitude
deriving DecidableEq

instance {ε α : Type} [DecidableEq ε] [DecidableEq α] : DecidableEq (Except ε α) := fun
  | .ok a, .ok b =>
    match decEq a b with
    | isTrue h => isTrue (by rw [h])
    | isFalse h => isFalse (fun hh => h (Except.ok.inj hh))
  | .ok _, .error _ => isFalse (fun h => Except.noConfusion h)
  | .error _, .ok _ => isFalse (fun h => Except.noConfusion h)
  | .error e, .error f =>
    match decEq e f with
    | isTrue h => isTrue (by rw [h])
    | isFalse h => isFalse (fun hh => h (Except.error.inj hh))

/-- `parse_rotation` from `puzzle_engine.rs`: reject lines shorter than
2 bytes, require the first character to be `'L'` or `'R'`, then parse the
byte remainder `line[1..]` as an `i32`.  (When the first character is `'L'`
or `'R'` it occupies one byte, so `line[1..]` is exactly the character
tail `rest`.) -/
def parse_rotation (line : List Char) : Except ParseError (Char × Int) :=
  if utf8Len line < 2 then .error .TooShort
  else
    match line with
    | [] => .error .InvalidDirection
    | d :: rest =>
      if d = 'L' ∨ d = 'R' then
        match parse_i32 rest with
        | some n => .ok (d, n)
        | none => .error .InvalidMagnitude
      else .error .InvalidDirection

/-! ### `apply_rotation_with_zero_count` -/

/-- The body of the `for _ in 0..distance` loop of
`apply_rotation_with_zero_count`, with `n` remaining iterations:
a `'R'` step is `(current + 1) % 100`, a `'L'` step is
`(current - 1 + 100) % 100` (Rust `%` = `Int.tmod`), any other direction
`break`s out immediately; after each step the zero counter is incremented
when the new position is 0. -/
def applyLoop (direction : Char) : Nat → Int → Nat → Int × Nat
  | 0, current, zero_count => (current, zero_count)
  | n + 1, current, zero_count =>
    if direction = 'R' then
      let c := (current + 1).tmod 100
      applyLoop direction n c (if c = 0 then zero_count + 1 else zero_count)
    else if direction = 'L' then
      let c := (current - 1 + 100).tmod 100
      applyLoop direction n c (if c = 0 then zero_count + 1 else zero_count)
    else (current, zero_count)

/-- `apply_rotation_with_zero_count` from `puzzle_engine.rs`: run the step
loop `distance` times (`0..distance` is empty when `distance ≤ 0`),
returning the final position and the number of steps that landed on 0. -/
def apply_rotation_with_zero_count (position : Int) (direction : Char)
    (distance : Int) : Int × Nat :=
  applyLoop direction distance.toNat position 0

/-! ### `solve_puzzle` -/

/-- One iteration of the `solve_puzzle` line loop on the state
(position, count): trim the line, skip it if empty, skip it if parsing
fails, otherwise run the simulator and accumulate. -/
def solveStep (st : Int × Nat) (rawLine : List Char) : Int × Nat :=
  let line := trim rawLine
  if line.isEmpty then st
  else
    match parse_rotation line with
    | .ok (direction, distance) =>
      let r := apply_rotation_with_zero_count st.1 direction distance
      (r.1, st.2 + r.2)
    | .error _ => st

/-- The `solve_puzzle` loop run on an explicit list of lines, starting
from position 50 and count 0. -/
def solveLines (ls : List (List Char)) : Int × Nat :=
  ls.foldl solveStep (50, 0)

/-- `solve_puzzle` from `puzzle_engine.rs`: fold the line loop over
`input.lines()` and return the accumulated zero-crossing count. -/
def solve_puzzle (input : List Char) : Nat :=
  (solveLines (rustLines input)).2

/-! ### Basic lemmas about the step loop -/

lemma applyLoop_zero (d : Char) (p : Int) (zc : Nat) :
    applyLoop d 0 p zc = (p, zc) := rfl

lemma applyLoop_succ (d : Char) (n : Nat) (p : Int) (zc : Nat) :
    applyLoop d (n + 1) p zc =
      if d = 'R' then
        applyLoop d n ((p + 1).tmod 100)
          (if (p + 1).tmod 100 = 0 then zc + 1 else zc)
      else if d = 'L' then
        applyLoop d n ((p - 1 + 100).tmod 100)
          (if (p - 1 + 100).tmod 100 = 0 then zc + 1 else zc)
      else (p, zc) := rfl

lemma applyLoop_other (d : Char) (hR : ¬ d = 'R') (hL : ¬ d = 'L')
    (n : Nat) (p : Int) (zc : Nat) : applyLoop d n p zc = (p, zc) := by
  cases n with
  | zero => rfl
  | succ n => rw [applyLoop_succ, if_neg hR, if_neg hL]

lemma tmod100_nonneg (a : Int) (ha : 0 ≤ a) : 0 ≤ a.tmod 100 := by
  rw [Int.tmod_eq_emod ha (by norm_num)]
  exact Int.emod_nonneg _ (by norm_num)

lemma tmod100_lt (a : Int) (ha : 0 ≤ a) : a.tmod 100 < 100 := by
  rw [Int.tmod_eq_emod ha (by norm_num)]
  exact Int.emod_lt_of_pos _ (by norm_num)

/-- Running `j + k` iterations is running `j`, then `k` more from the
intermediate state: intermediate states of a long run are the results of
shorter runs. -/
lemma applyLoop_add (d : Char) (j k : Nat) (p : Int) (zc : Nat) :
    applyLoop d (j + k) p zc
      = applyLoop d k (applyLoop d j p zc).1 (applyLoop d j p zc).2 := by
  induction j generalizing p zc with
  | zero => rw [Nat.zero_add, applyLoop_zero]
  | succ j ih =>
    by_cases hR : d = 'R'
    · subst hR
      rw [show j + 1 + k = (j + k) + 1 by omega,
        applyLoop_succ 'R' (j + k) p zc, if_pos rfl,
        applyLoop_succ 'R' j p zc, if_pos rfl, ih]
    · by_cases hL : d = 'L'
      · subst hL
        rw [show j + 1 + k = (j + k) + 1 by omega,
          applyLoop_succ 'L' (j + k) p zc, if_neg hR, if_pos rfl,
          applyLoop_succ 'L' j p zc, if_neg hR, if_pos rfl, ih]
      · rw [applyLoop_other d hR hL, applyLoop_other d hR hL, applyLoop_other d hR hL]

/-- The position stays in `[0, 100)` across the whole loop. -/
lemma applyLoop_fst_mem (d : Char) (n : Nat) (p : Int) (zc : Nat)
    (h0 : 0 ≤ p) (h1 : p < 100) :
    0 ≤ (applyLoop d n p zc).1 ∧ (applyLoop d n p zc).1 < 100 := by
  induction n generalizing p zc with
  | zero => exact ⟨h0, h1⟩
  | succ n ih =>
    rw [applyLoop_succ]
    by_cases hR : d = 'R'
    · rw [if_pos hR]
      exact ih _ _ (tmod100_nonneg _ (by omega)) (tmod100_lt _ (by omega))
    · rw [if_neg hR]
      by_cases hL : d = 'L'
      · rw [if_pos hL]
        exact ih _ _ (tmod100_nonneg _ (by omega)) (tmod100_lt _ (by omega))
      · rw [if_neg hL]
        exact ⟨h0, h1⟩

/-- Final position of a right rotation: `(p + n) mod 100`. -/
lemma applyLoop_fst_R (n : Nat) (p : Int) (zc : Nat)
    (h0 : 0 ≤ p) (h1 : p < 100) :
    (applyLoop 'R' n p zc).1 = (p + n) % 100 := by
  induction n generalizing p zc with
  | zero => rw [applyLoop_zero]; omega
  | succ n ih =>
    rw [applyLoop_succ, if_pos rfl,
      Int.tmod_eq_emod (by omega : (0:Int) ≤ p + 1) (by norm_num),
      ih ((p + 1) % 100) _ (by omega) (by omega)]
    push_cast
    omega

/-- Final position of a left rotation: `(p - n) mod 100`. -/
lemma applyLoop_fst_L (n : Nat) (p : Int) (zc : Nat)
    (h0 : 0 ≤ p) (h1 : p < 100) :
    (applyLoop 'L' n p zc).1 = (p - n) % 100 := by
  induction n generalizing p zc with
  | zero => rw [applyLoop_zero]; omega
  | succ n ih =>
    rw [applyLoop_succ, if_neg (by decide), if_pos rfl,
      Int.tmod_eq_emod (by omega : (0:Int) ≤ p - 1 + 100) (by norm_num),
      ih ((p - 1 + 100) % 100) _ (by omega) (by omega)]
    push_cast
    omega

/-- The zero counter never exceeds its start value plus the number of
iterations. -/
lemma applyLoop_snd_le (d : Char) (n : Nat) (p : Int) (zc : Nat) :
    (applyLoop d n p zc).2 ≤ zc + n := by
  induction n generalizing p zc with
  | zero => rw [applyLoop_zero]; omega
  | succ n ih =>
    rw [applyLoop_succ]
    by_cases hR : d = 'R'
    · rw [if_pos hR]
      refine le_trans (ih _ _) ?_
      split <;> omega
    · rw [if_neg hR]
      by_cases hL : d = 'L'
      · rw [if_pos hL]
        refine le_trans (ih _ _) ?_
        split <;> omega
      · rw [if_neg hL]
        omega

/-! ### Counting zero hits -/

/-- Growing the interval `[1, n]` by one element on the right grows the
filtered count by one exactly when the new endpoint satisfies the
predicate. -/
lemma card_filter_Icc_succ (P : Int → Prop) [DecidablePred P] (n : Nat) :
    ((Finset.Icc (1:Int) ((n:Int) + 1)).filter P).card
      = ((Finset.Icc (1:Int) (n:Int)).filter P).card
        + (if P ((n:Int) + 1) then 1 else 0) := by
  have hIns : Finset.Icc (1:Int) ((n:Int) + 1)
      = insert ((n:Int) + 1) (Finset.Icc (1:Int) (n:Int)) := by
    ext x
    simp only [Finset.mem_Icc, Finset.mem_insert]
    omega
  rw [hIns, Finset.filter_insert]
  split
  · rw [Finset.card_insert_of_not_mem]
    simp only [Finset.mem_filter, Finset.mem_Icc]
    rintro ⟨⟨-, h2⟩, -⟩
    omega
  · omega

/-- Zero counter of a right rotation: number of steps `k ∈ [1, n]` whose
resulting position `(p + k) mod 100` is 0. -/
lemma applyLoop_snd_R (n : Nat) (p : Int) (zc : Nat)
    (h0 : 0 ≤ p) (h1 : p < 100) :
    (applyLoop 'R' n p zc).2
      = zc + ((Finset.Icc (1:Int) (n:Int)).filter
          (fun k => (p + k) % 100 = 0)).card := by
  induction n with
  | zero =>
    rw [applyLoop_zero]
    rw [show ((0:Nat):Int) = 0 by norm_num, Finset.Icc_eq_empty (by norm_num)]
    simp
  | succ n ih =>
    rw [show (n:Nat) + 1 = n + 1 from rfl, applyLoop_add 'R' n 1 p zc,
      applyLoop_succ, if_pos rfl, applyLoop_zero]
    have hq := applyLoop_fst_R n p zc h0 h1
    have hqm : 0 ≤ (applyLoop 'R' n p zc).1 + 1 := by
      rw [hq]
      have := Int.emod_nonneg (p + n) (by norm_num : (100:Int) ≠ 0)
      omega
    have htm : ((applyLoop 'R' n p zc).1 + 1).tmod 100
        = (p + ((n:Int) + 1)) % 100 := by
      rw [Int.tmod_eq_emod hqm (by norm_num), hq]
      omega
    dsimp only
    rw [htm, ih, Nat.cast_add_one, card_filter_Icc_succ]
    split_ifs <;> omega

/-- Zero counter of a left rotation: number of steps `k ∈ [1, n]` whose
resulting position `(p - k) mod 100` is 0. -/
lemma applyLoop_snd_L (n : Nat) (p : Int) (zc : Nat)
    (h0 : 0 ≤ p) (h1 : p < 100) :
    (applyLoop 'L' n p zc).2
      = zc + ((Finset.Icc (1:Int) (n:Int)).filter
          (fun k => (p - k) % 100 = 0)).card := by
  induction n with
  | zero =>
    rw [applyLoop_zero]
    rw [show ((0:Nat):Int) = 0 by norm_num, Finset.Icc_eq_empty (by norm_num)]
    simp
  | succ n ih =>
    rw [show (n:Nat) + 1 = n + 1 from rfl, applyLoop_add 'L' n 1 p zc,
      applyLoop_succ, if_neg (by decide), if_pos rfl, applyLoop_zero]
    have hq := applyLoop_fst_L n p zc h0 h1
    have hqm : 0 ≤ (applyLoop 'L' n p zc).1 - 1 + 100 := by
      rw [hq]
      have := Int.emod_nonneg (p - n) (by norm_num : (100:Int) ≠ 0)
      omega
    have htm : ((applyLoop 'L' n p zc).1 - 1 + 100).tmod 100
        = (p - ((n:Int) + 1)) % 100 := by
      rw [Int.tmod_eq_emod hqm (by norm_num), hq]
      omega
    dsimp only
    rw [htm, ih, Nat.cast_add_one, card_filter_Icc_succ]
    split_ifs <;> omega

/-! ### Lemmas about the parser -/

lemma utf8Len_pos (l : List Char) (h : l ≠ []) : 0 < utf8Len l := by
  cases l with
  | nil => exact absurd rfl h
  | cons c rest =>
    have := Char.utf8Size_pos c
    simp only [utf8Len]
    omega

lemma parse_i32_ne_nil (rest : List Char) (n : Int)
    (h : parse_i32 rest = some n) : rest ≠ [] := by
  intro he
  subst he
  exact Option.noConfusion h

lemma parse_rotation_tooShort (l : List Char) (h : utf8Len l < 2) :
    parse_rotation l = .error .TooShort := by
  unfold parse_rotation
  rw [if_pos h]

lemma parse_rotation_invalidDir (c : Char) (rest : List Char)
    (hlen : ¬ utf8Len (c :: rest) < 2) (hc : ¬ (c = 'L' ∨ c = 'R')) :
    parse_rotation (c :: rest) = .error .InvalidDirection := by
  unfold parse_rotation
  rw [if_neg hlen]
  dsimp only
  rw [if_neg hc]

lemma parse_rotation_invalidMag (c : Char) (rest : List Char)
    (hlen : ¬ utf8Len (c :: rest) < 2) (hc : c = 'L' ∨ c = 'R')
    (hp : parse_i32 rest = none) :
    parse_rotation (c :: rest) = .error .InvalidMagnitude := by
  unfold parse_rotation
  rw [if_neg hlen]
  dsimp only
  rw [if_pos hc, hp]

lemma parse_rotation_ok (d : Char) (rest : List Char) (n : Int)
    (hd : d = 'L' ∨ d = 'R') (hp : parse_i32 rest = some n) :
    parse_rotation (d :: rest) = .ok (d, n) := by
  have hne : rest ≠ [] := parse_i32_ne_nil rest n hp
  have hlen : ¬ utf8Len (d :: rest) < 2 := by
    have hdp := Char.utf8Size_pos d
    have hrp := utf8Len_pos rest hne
    simp only [utf8Len]
    omega
  unfold parse_rotation
  rw [if_neg hlen]
  dsimp only
  rw [if_pos hd, hp]

/-! ### Lemmas about the driving loop -/

/-- A negative magnitude runs zero iterations: the state is untouched. -/
lemma apply_rotation_neg (p : Int) (d : Char) (m : Int) (hm : m < 0) :
    apply_rotation_with_zero_count p d m = (p, 0) := by
  unfold apply_rotation_with_zero_count
  rw [Int.toNat_of_nonpos (le_of_lt hm)]
  rfl

/-- A line whose trimmed form fails to parse leaves the state unchanged. -/
lemma solveStep_error (st : Int × Nat) (l : List Char) (e : ParseError)
    (h : parse_rotation (trim l) = .error e) : solveStep st l = st := by
  unfold solveStep
  by_cases he : (trim l).isEmpty
  · rw [if_pos he]
  · rw [if_neg he, h]

/-- A line that does not parse to a command (blank or malformed) leaves
the state unchanged. -/
lemma solveStep_notOk (st : Int × Nat) (l : List Char)
    (h : (parse_rotation (trim l)).isOk = false) : solveStep st l = st := by
  cases hp : parse_rotation (trim l) with
  | ok v =>
    rw [hp] at h
    exact Bool.noConfusion h
  | error e => exact solveStep_error st l e hp

/-- One line-loop iteration keeps the position in `[0, 100)`. -/
lemma solveStep_mem (st : Int × Nat) (l : List Char)
    (h0 : 0 ≤ st.1) (h1 : st.1 < 100) :
    0 ≤ (solveStep st l).1 ∧ (solveStep st l).1 < 100 := by
  unfold solveStep
  by_cases he : (trim l).isEmpty
  · rw [if_pos he]
    exact ⟨h0, h1⟩
  · rw [if_neg he]
    cases hp : parse_rotation (trim l) with
    | ok v =>
      obtain ⟨d, dist⟩ := v
      dsimp only
      exact applyLoop_fst_mem d dist.toNat st.1 0 h0 h1
    | error e => exact ⟨h0, h1⟩

/-- The position threaded through the line loop stays in `[0, 100)`. -/
lemma foldl_solveStep_mem (ls : List (List Char)) (st : Int × Nat)
    (h0 : 0 ≤ st.1) (h1 : st.1 < 100) :
    0 ≤ (ls.foldl solveStep st).1 ∧ (ls.foldl solveStep st).1 < 100 := by
  induction ls generalizing st with
  | nil => exact ⟨h0, h1⟩
  | cons l ls ih =>
    rw [List.foldl_cons]
    exact ih _ (solveStep_mem st l h0 h1).1 (solveStep_mem st l h0 h1).2

/-- If no line parses to a command, the whole loop is the identity. -/
lemma foldl_solveStep_const (ls : List (List Char)) (st : Int × Nat)
    (h : ∀ l ∈ ls, (parse_rotation (trim l)).isOk = false) :
    ls.foldl solveStep st = st := by
  induction ls generalizing st with
  | nil => rfl
  | cons l ls ih =>
    rw [List.foldl_cons, solveStep_notOk st l (h l (List.mem_cons_self l ls))]
    exact ih st fun x hx => h x (List.mem_cons_of_mem l hx)

/-! ### The claims -/

/-- C1: for a start position `p ∈ [0,100)` and magnitude `m ≥ 0`, the
`zero_hits` value returned by `apply_rotation_with_zero_count` is the
number of integers `k ∈ [1, m]` with `(p + k) mod 100 = 0` for `Right`
and `(p - k) mod 100 = 0` for `Left`. -/
theorem C1_zero_hits_counts_interval (p m : Int)
    (h0 : 0 ≤ p) (h1 : p < 100) (hm : 0 ≤ m) :
    (apply_rotation_with_zero_count p 'R' m).2
        = ((Finset.Icc (1:Int) m).filter (fun k => (p + k) % 100 = 0)).card
    ∧ (apply_rotation_with_zero_count p 'L' m).2
        = ((Finset.Icc (1:Int) m).filter (fun k => (p - k) % 100 = 0)).card := by
  have hc : ((m.toNat : Int)) = m := Int.toNat_of_nonneg hm
  constructor
  · have h := applyLoop_snd_R m.toNat p 0 h0 h1
    rw [hc] at h
    simpa [apply_rotation_with_zero_count] using h
  · have h := applyLoop_snd_L m.toNat p 0 h0 h1
    rw [hc] at h
    simpa [apply_rotation_with_zero_count] using h

/-- Witness for C1 at `p = 98`, `m = 5` (the right rotation crosses zero
once, at step `k = 2`). -/
theorem C1_witness :
    (0:Int) ≤ 98 ∧ (98:Int) < 100 ∧ (0:Int) ≤ 5 ∧
    (apply_rotation_with_zero_count 98 'R' 5).2
        = ((Finset.Icc (1:Int) 5).filter (fun k => ((98:Int) + k) % 100 = 0)).card ∧
    (apply_rotation_with_zero_count 98 'L' 5).2
        = ((Finset.Icc (1:Int) 5).filter (fun k => ((98:Int) - k) % 100 = 0)).card :=
  ⟨by norm_num, by norm_num, by norm_num,
   (C1_zero_hits_counts_interval 98 5 (by norm_num) (by norm_num) (by norm_num)).1,
   (C1_zero_hits_counts_interval 98 5 (by norm_num) (by norm_num) (by norm_num)).2⟩

/-- C2: for a start position `p ∈ [0,100)` and magnitude `m ≥ 0`, the
final position returned by `apply_rotation_with_zero_count` is
`(p + m) mod 100` for `Right` and `(p - m) mod 100` for `Left`
(mathematical modulus, so the result lies in `[0, 100)`). -/
theorem C2_final_position (p m : Int)
    (h0 : 0 ≤ p) (h1 : p < 100) (hm : 0 ≤ m) :
    (apply_rotation_with_zero_count p 'R' m).1 = (p + m) % 100
    ∧ (apply_rotation_with_zero_count p 'L' m).1 = (p - m) % 100 := by
  have hc : ((m.toNat : Int)) = m := Int.toNat_of_nonneg hm
  constructor
  · have h := applyLoop_fst_R m.toNat p 0 h0 h1
    rw [hc] at h
    exact h
  · have h := applyLoop_fst_L m.toNat p 0 h0 h1
    rw [hc] at h
    exact h

/-- Witness for C2 at `p = 50`, `m = 150`. -/
theorem C2_witness :
    (0:Int) ≤ 50 ∧ (50:Int) < 100 ∧ (0:Int) ≤ 150 ∧
    (apply_rotation_with_zero_count 50 'R' 150).1 = (50 + 150) % 100 ∧
    (apply_rotation_with_zero_count 50 'L' 150).1 = (50 - 150) % 100 :=
  ⟨by norm_num, by norm_num, by norm_num,
   (C2_final_position 50 150 (by norm_num) (by norm_num) (by norm_num)).1,
   (C2_final_position 50 150 (by norm_num) (by norm_num) (by norm_num)).2⟩

/-- C3: starting from any position in `[0,100)`, the simulator's result
position is again in `[0,100)` for every direction and magnitude (and so,
by `applyLoop_add`, is every intermediate position, each being the result
of a shorter run); the position threaded through the `solve_puzzle` loop,
initialised to 50, is always in `[0,100)`. -/
theorem C3_position_invariant (p m : Int) (d : Char) (input : List Char)
    (h0 : 0 ≤ p) (h1 : p < 100) :
    (0 ≤ (apply_rotation_with_zero_count p d m).1
      ∧ (apply_rotation_with_zero_count p d m).1 < 100)
    ∧ (0 ≤ (solveLines (rustLines input)).1
      ∧ (solveLines (rustLines input)).1 < 100) :=
  ⟨applyLoop_fst_mem d m.toNat p 0 h0 h1,
   foldl_solveStep_mem (rustLines input) (50, 0) (by norm_num) (by norm_num)⟩

/-- Witness for C3 at `p = 99`, `d = 'R'`, `m = 1`, and a small input. -/
theorem C3_witness :
    (0:Int) ≤ 99 ∧ (99:Int) < 100 ∧
    ((0 ≤ (apply_rotation_with_zero_count 99 'R' 1).1
      ∧ (apply_rotation_with_zero_count 99 'R' 1).1 < 100)
    ∧ (0 ≤ (solveLines (rustLines ['R', '5', '\n', 'L', '7'])).1
      ∧ (solveLines (rustLines ['R', '5', '\n', 'L', '7'])).1 < 100)) :=
  ⟨by norm_num, by norm_num,
   C3_position_invariant 99 1 'R' ['R', '5', '\n', 'L', '7']
     (by norm_num) (by norm_num)⟩

/-- C4 as stated is false: for a negative magnitude the step loop runs
zero times, so `zero_hits = 0`, which is **not** `≤ magnitude`.  Here at
position 50 (in `[0,100)`) and magnitude `-1`. -/
theorem C4_counterexample :
    (0:Int) ≤ 50 ∧ (50:Int) < 100 ∧
    ¬ (((apply_rotation_with_zero_count 50 'R' (-1)).2 : Int) ≤ -1) := by
  refine ⟨by norm_num, by norm_num, ?_⟩
  rw [apply_rotation_neg 50 'R' (-1) (by norm_num)]
  norm_num

/-- C4 (amended): `zero_hits ≥ 0` always; `zero_hits ≤ magnitude`
whenever the magnitude is non-negative; for a negative magnitude
`zero_hits = 0`. -/
theorem C4_zero_hits_bounds (p : Int) (d : Char) (m mneg : Int)
    (h0 : 0 ≤ p) (h1 : p < 100) (hm : 0 ≤ m) (hmneg : mneg < 0) :
    0 ≤ ((apply_rotation_with_zero_count p d m).2 : Int)
    ∧ ((apply_rotation_with_zero_count p d m).2 : Int) ≤ m
    ∧ (apply_rotation_with_zero_count p d mneg).2 = 0 := by
  refine ⟨Int.ofNat_nonneg _, ?_, ?_⟩
  · have hle := applyLoop_snd_le d m.toNat p 0
    have hc : ((m.toNat : Int)) = m := Int.toNat_of_nonneg hm
    unfold apply_rotation_with_zero_count
    omega
  · rw [apply_rotation_neg p d mneg hmneg]

/-- Witness for C4 (amended) at `p = 50`, `d = 'R'`, `m = 7`,
`mneg = -3`. -/
theorem C4_witness :
    (0:Int) ≤ 50 ∧ (50:Int) < 100 ∧ (0:Int) ≤ 7 ∧ (-3:Int) < 0 ∧
    (0 ≤ ((apply_rotation_with_zero_count 50 'R' 7).2 : Int)
    ∧ ((apply_rotation_with_zero_count 50 'R' 7).2 : Int) ≤ 7
    ∧ (apply_rotation_with_zero_count 50 'R' (-3)).2 = 0) :=
  ⟨by norm_num, by norm_num, by norm_num, by norm_num,
   C4_zero_hits_bounds 50 'R' 7 (-3) (by norm_num) (by norm_num)
     (by norm_num) (by norm_num)⟩

/-- C5: a line whose first character is `'L'` or `'R'` and whose remainder
parses as a negative `i32` is accepted, returning the negative magnitude
exactly as parsed; and the simulator called with any negative magnitude
executes zero steps, returning the position unchanged with
`zero_hits = 0`. -/
theorem C5_negative_magnitude_flows_through (d : Char) (rest : List Char)
    (n : Int) (q : Int) (e : Char) (m : Int)
    (hd : d = 'L' ∨ d = 'R') (hp : parse_i32 rest = some n) (hn : n < 0)
    (hm : m < 0) :
    parse_rotation (d :: rest) = .ok (d, n)
    ∧ apply_rotation_with_zero_count q e m = (q, 0) :=
  ⟨parse_rotation_ok d rest n hd hp, apply_rotation_neg q e m hm⟩

/-- Witness for C5 on the line `"R-5"` and a simulator call at position 50
with magnitude `-5`. -/
theorem C5_witness :
    (('R' : Char) = 'L' ∨ ('R' : Char) = 'R') ∧
    parse_i32 ['-', '5'] = some (-5) ∧ ((-5 : Int) < 0) ∧
    (parse_rotation ['R', '-', '5'] = .ok ('R', -5)
    ∧ apply_rotation_with_zero_count 50 'R' (-5) = (50, 0)) :=
  ⟨Or.inr rfl, by decide, by norm_num,
   C5_negative_magnitude_flows_through 'R' ['-', '5'] (-5) 50 'R' (-5)
     (Or.inr rfl) (by decide) (by norm_num) (by norm_num)⟩

/-- C6 as stated is false: the parser does **not** reject a magnitude with
a leading `'-'`; `"R-5"` parses successfully to `(R, -5)`. -/
theorem C6_counterexample :
    parse_rotation ['R', '-', '5'] = .ok ('R', -5)
    ∧ (parse_rotation ['R', '-', '5']).isOk = true := by
  constructor <;> decide

/-- C6 (amended): the parser accepts every line whose first character is
`'L'` or `'R'` and whose remainder is a leading `'-'` followed by text
that together parses as an `i32`, returning the negative magnitude. -/
theorem C6_parser_accepts_leading_minus (d : Char) (ds : List Char) (n : Int)
    (hd : d = 'L' ∨ d = 'R') (hp : parse_i32 ('-' :: ds) = some n) :
    parse_rotation (d :: '-' :: ds) = .ok (d, n) :=
  parse_rotation_ok d ('-' :: ds) n hd hp

/-- Witness for C6 (amended) on the line `"L-12"`. -/
theorem C6_witness :
    (('L' : Char) = 'L' ∨ ('L' : Char) = 'R') ∧
    parse_i32 ['-', '1', '2'] = some (-12) ∧
    parse_rotation ['L', '-', '1', '2'] = .ok ('L', -12) :=
  ⟨Or.inl rfl, by decide,
   C6_parser_accepts_leading_minus 'L' ['1', '2'] (-12) (Or.inl rfl) (by decide)⟩

/-- C7 as stated is false: the length check of `parse_rotation` counts
UTF-8 **bytes**, not characters.  The line `"é"` has one character but two
bytes, so it is not rejected as too short; it fails with
`InvalidDirection` instead of `TooShort`. -/
theorem C7_counterexample :
    (['é'] : List Char).length = 1
    ∧ parse_rotation ['é'] = .error .InvalidDirection
    ∧ ¬ parse_rotation ['é'] = .error .TooShort := by
  refine ⟨rfl, by decide, by decide⟩

/-- C7 (amended): the validation rules apply in order over the **byte**
length: a line of fewer than 2 bytes fails with `TooShort`; a line of at
least 2 bytes whose first character is not exactly `'L'` or `'R'` fails
with `InvalidDirection`; a line of at least 2 bytes whose first character
is `'L'` or `'R'` but whose remainder does not parse as a base-10 `i32`
fails with `InvalidMagnitude`. -/
theorem C7_validation_order (la : List Char) (cb : Char) (lb : List Char)
    (cc : Char) (lc : List Char)
    (ha : utf8Len la < 2)
    (hb1 : 2 ≤ utf8Len (cb :: lb)) (hb2 : ¬ (cb = 'L' ∨ cb = 'R'))
    (hc1 : cc = 'L' ∨ cc = 'R') (hc2 : 2 ≤ utf8Len (cc :: lc))
    (hc3 : parse_i32 lc = none) :
    parse_rotation la = .error .TooShort
    ∧ parse_rotation (cb :: lb) = .error .InvalidDirection
    ∧ parse_rotation (cc :: lc) = .error .InvalidMagnitude :=
  ⟨parse_rotation_tooShort la ha,
   parse_rotation_invalidDir cb lb (by omega) hb2,
   parse_rotation_invalidMag cc lc (by omega) hc1 hc3⟩

/-- Witness for C7 (amended) on the lines `"5"`, `"55"` and `"R5x"`. -/
theorem C7_witness :
    utf8Len ['5'] < 2 ∧
    2 ≤ utf8Len ['5', '5'] ∧ ¬ (('5' : Char) = 'L' ∨ ('5' : Char) = 'R') ∧
    (('R' : Char) = 'L' ∨ ('R' : Char) = 'R') ∧
    2 ≤ utf8Len ['R', '5', 'x'] ∧ parse_i32 ['5', 'x'] = none ∧
    (parse_rotation ['5'] = .error .TooShort
    ∧ parse_rotation ['5', '5'] = .error .InvalidDirection
    ∧ parse_rotation ['R', '5', 'x'] = .error .InvalidMagnitude) :=
  ⟨by decide, by decide, by decide, Or.inr rfl, by decide, by decide,
   C7_validation_order ['5'] '5' ['5'] 'R' ['5', 'x']
     (by decide) (by decide) (by decide) (Or.inr rfl) (by decide) (by decide)⟩

/-- C8: a line whose trimmed form fails to parse leaves the
(position, count) state unchanged, and the line loop on any list of lines
containing it computes the same result as the loop without it: parse
failures are skipped and never abort the run. -/
theorem C8_parse_failures_are_skipped (st : Int × Nat)
    (pre post : List (List Char)) (bad : List Char) (e : ParseError)
    (h : parse_rotation (trim bad) = .error e) :
    solveStep st bad = st
    ∧ solveLines (pre ++ bad :: post) = solveLines (pre ++ post) := by
  refine ⟨solveStep_error st bad e h, ?_⟩
  unfold solveLines
  rw [List.foldl_append, List.foldl_append, List.foldl_cons,
    solveStep_error _ bad e h]

/-- Witness for C8: the malformed line `"BOGUS"` between `"R50"` and
`"L7"`. -/
theorem C8_witness :
    parse_rotation (trim ['B', 'O', 'G', 'U', 'S']) = .error .InvalidDirection ∧
    (solveStep (50, 0) ['B', 'O', 'G', 'U', 'S'] = (50, 0)
    ∧ solveLines ([['R', '5', '0']] ++ ['B', 'O', 'G', 'U', 'S'] :: [['L', '7']])
        = solveLines ([['R', '5', '0']] ++ [['L', '7']])) :=
  ⟨by decide,
   C8_parse_failures_are_skipped (50, 0) [['R', '5', '0']] [['L', '7']]
     ['B', 'O', 'G', 'U', 'S'] .InvalidDirection (by decide)⟩

/-- C9: an input none of whose lines parses to a command (empty input,
all lines blank after trimming, or all lines malformed) makes
`solve_puzzle` return 0. -/
theorem C9_no_valid_lines_gives_zero (input : List Char)
    (h : ∀ l ∈ rustLines input, (parse_rotation (trim l)).isOk = false) :
    solve_puzzle input = 0 := by
  unfold solve_puzzle solveLines
  rw [foldl_solveStep_const (rustLines input) (50, 0) h]

/-- Witness for C9 on the input `"BOGUS\n\nR1x"` (a malformed line, a
blank line, and a line with a malformed magnitude). -/
theorem C9_witness :
    (∀ l ∈ rustLines ['B', 'O', 'G', 'U', 'S', '\n', '\n', 'R', '1', 'x'],
      (parse_rotation (trim l)).isOk = false) ∧
    solve_puzzle ['B', 'O', 'G', 'U', 'S', '\n', '\n', 'R', '1', 'x'] = 0 :=
  ⟨by decide,
   C9_no_valid_lines_gives_zero ['B', 'O', 'G', 'U', 'S', '\n', '\n', 'R', '1', 'x']
     (by decide)⟩

/-- C10: when the first character of a line is `'L'` or `'R'` (the only
case in which `parse_rotation` evaluates the byte slice `line[1..]`),
byte index 1 is a character boundary, and the bytes from index 1 on are
exactly the encoding of the character tail — so the slice never panics;
moreover on a line whose first character is anything else (including a
multi-byte character) the parser returns `InvalidDirection` without
slicing at all. -/
theorem C10_slice_is_on_char_boundary (d : Char) (rest : List Char)
    (c : Char) (tail : List Char)
    (hd : d = 'L' ∨ d = 'R')
    (hc : ¬ (c = 'L' ∨ c = 'R')) (hlen : 2 ≤ utf8Len (c :: tail)) :
    isCharBoundary (d :: rest) 1 = true
    ∧ (encodeUtf8 (d :: rest)).drop 1 = encodeUtf8 rest
    ∧ parse_rotation (c :: tail) = .error .InvalidDirection := by
  refine ⟨?_, ?_, parse_rotation_invalidDir c tail (by omega) hc⟩
  · have h1 : d.utf8Size = 1 := by rcases hd with rfl | rfl <;> decide
    simp [isCharBoundary, h1]
  · rcases hd with rfl | rfl <;> rfl

/-- Witness for C10 with line `"Ré"` (single-byte direction, multi-byte
tail) and line `"é5"` (multi-byte first character). -/
theorem C10_witness :
    (('R' : Char) = 'L' ∨ ('R' : Char) = 'R') ∧
    ¬ (('é' : Char) = 'L' ∨ ('é' : Char) = 'R') ∧
    2 ≤ utf8Len ['é', '5'] ∧
    (isCharBoundary ['R', 'é'] 1 = true
    ∧ (encodeUtf8 ['R', 'é']).drop 1 = encodeUtf8 ['é']
    ∧ parse_rotation ['é', '5'] = .error .InvalidDirection) :=
  ⟨Or.inr rfl, by decide, by decide,
   C10_slice_is_on_char_boundary 'R' ['é'] 'é' ['5']
     (Or.inr rfl) (by decide) (by decide)⟩

end Day1
